import Mathlib

/-!
Verification development for the PandaKnock port-knocking client.

The program is a single-state-machine GUI application (`src/main.rs`) plus a
small settings module (`src/config.rs`).  We shallowly embed the pure core:

* `parseUnsigned` models Rust `str::parse` for unsigned integer types
  (optional leading plus sign, ASCII digits, overflow check);
* `parse_port_str` models `PandaKnocking::parse_port_str`;
* `PandaKnocking` and `update` model the application state and its
  message-handling function.  The `iced` task returned by `update` is made
  explicit as an `AppTask` value, and every toast pushed during one call of
  `update` is returned as a structured `Toast` value carrying exactly the data
  the corresponding `format!` call interpolates (the surrounding literal text
  is presentation and is not modelled);
* `drive` executes the self-contained message chains that `update` schedules
  (a `Task::perform` that produces one follow-up message), recording probe
  attempts and process-exit requests as events;
* `load_or_create` models `config::load_or_create`, with the filesystem and
  the JSON decoder abstracted into a `ConfigLoadSource` oracle describing
  which of the source branches the environment selects.
-/

/-- Error kinds of Rust `core::num::ParseIntError` reachable when parsing an
unsigned integer from a trimmed string. -/
inductive ParseIntError where
  | empty
  | invalidDigit
  | posOverflow
deriving DecidableEq, Repr

/-- Rust `str::trim`, as a structural function on the character list (the
whitespace predicate is restricted to the ASCII whitespace the inputs at
hand contain; Rust trims by the Unicode White_Space property). -/
def rustTrim (s : String) : String :=
  String.mk (((s.data.dropWhile Char.isWhitespace).reverse.dropWhile
    Char.isWhitespace).reverse)

/-- Splitting a character list on a separator, keeping empty chunks, as Rust
`str::split` does: the empty input yields one empty chunk, and every
separator occurrence ends a chunk. -/
def splitChar (sep : Char) : List Char → List (List Char)
  | [] => [[]]
  | c :: cs =>
    match splitChar sep cs with
    | [] => [[]]
    | g :: gs => if c = sep then [] :: g :: gs else (c :: g) :: gs

/-- Rust `str::split(sep)` collected into a list. -/
def rustSplit (sep : Char) (s : String) : List String :=
  (splitChar sep s.data).map String.mk

/-- Model of Rust `str::parse::<uN>()` on an already-trimmed string: an empty
string is rejected as `Empty`; one optional leading plus sign is allowed; the
remainder must be nonempty and all ASCII digits; a value above `limit`
(the maximum of the target type) is rejected as `PosOverflow`. -/
def parseUnsigned (limit : Nat) (s : String) : Except ParseIntError Nat :=
  match s.data with
  | [] => .error .empty
  | c :: cs =>
    let digits := if c = '+' then cs else c :: cs
    if digits.isEmpty then .error .invalidDigit
    else if digits.all Char.isDigit then
      let n := digits.foldl (fun a ch => a * 10 + (ch.toNat - 48)) 0
      if n ≤ limit then .ok n else .error .posOverflow
    else .error .invalidDigit

/-- Rust `str::parse::<u16>()`. -/
def parseU16 (s : String) : Except ParseIntError Nat := parseUnsigned 65535 s

/-- Rust `str::parse::<u64>()`. -/
def parseU64 (s : String) : Except ParseIntError Nat := parseUnsigned (2 ^ 64 - 1) s

/-- Levels of `iced_toasts::ToastLevel` used by the program. -/
inductive ToastLevel where
  | success
  | error
  | info
deriving DecidableEq, Repr

/-- Each toast the program pushes, as structured data.  Every constructor
corresponds to one `format!`/`toast` call site in `src/main.rs` and carries
exactly the values interpolated there. -/
inductive Toast where
  /-- "第 {i+1} 个{kind}端口解析失败：…" (level Error), from `parse_port_str`:
  `position` is the 1-based index of the offending token in the comma split,
  `kind` the open/close label, `token` the trimmed token, `err` the parse
  error. -/
  | portParseFailed (position : Nat) (kind : String) (token : String) (err : ParseIntError)
  /-- "延迟解析失败：…" (level Error), routed through `Message::PushToast` from
  the `DelayInputChanged` handler. -/
  | delayParseFailed (token : String) (err : ParseIntError)
  /-- "第 {prev+1} 个{kind}端口成功发送敲门指令：…" (level Success), from the
  `KnockStep` handler: `stepNumber` is the 1-based position of the completed
  step. -/
  | knockStepDelivered (stepNumber : Nat) (kind : String) (host : String) (port : Nat)
  /-- "所有{kind}端口敲门完成!" (level Info), from the `KnockStep` completion
  branch. -/
  | allKnocksDone (kind : String)
  /-- "检测到关闭请求，正在发送关闭端口序列..." (level Info), from the
  close-request handler. -/
  | closeRequestedInfo
  /-- "配置保存成功!" (level Success). -/
  | saveOk
  /-- "配置保存失败: {e}" (level Error). -/
  | saveFailed (e : String)
deriving DecidableEq, Repr

/-- `PandaKnocking::parse_port_str`: split the text on commas, trim each
token, skip tokens that are empty after trimming, collect tokens that parse
as `u16` in encounter order, and push one error toast per non-empty token
that fails to parse, numbered by its 1-based position in the comma split.
Returns the parsed ports together with the toasts pushed. -/
def parse_port_str (port_str : String) (kind : String) : List Nat × List Toast :=
  ((rustSplit ',' port_str).enum).foldl
    (fun acc p =>
      let trimmed := rustTrim p.2
      if trimmed.isEmpty then acc
      else
        match parseU16 trimmed with
        | .ok num => (acc.1 ++ [num], acc.2)
        | .error err => (acc.1, acc.2 ++ [.portParseFailed (p.1 + 1) kind trimmed err]))
    ([], [])

/-- The valid-token selector implicit in `parse_port_str`. -/
def validPort (tok : String) : Option Nat :=
  let t := rustTrim tok
  if t.isEmpty then none else (parseU16 t).toOption

/-- The diagnostic selector implicit in `parse_port_str`, applied to an
indexed token of the comma split. -/
def portDiag (kind : String) (p : Nat × String) : Option Toast :=
  let t := rustTrim p.2
  if t.isEmpty then none
  else
    match parseU16 t with
    | .ok _ => none
    | .error err => some (.portParseFailed (p.1 + 1) kind t err)

/-- `config::Config`: the persisted settings record. -/
structure Config where
  host : String
  ports_str : String
  close_ports_str : String
  delay : Nat
deriving DecidableEq, Repr

/-- `impl Default for Config`. -/
def Config.default : Config :=
  { host := "127.0.0.1"
    ports_str := "5000, 6000, 7000"
    close_ports_str := "7000, 6000, 5000"
    delay := 1000 }

/-- Which branch of `config::load_or_create` the environment (filesystem and
JSON decoder, both external collaborators) selects: no config directory can
be determined, the file is missing, `fs::read_to_string` fails, the content
does not deserialize as a `Config`, or it deserializes to `c`. -/
inductive ConfigLoadSource where
  | noConfigDir
  | fileMissing
  | fileUnreadable
  | fileCorrupt
  | fileParsed (c : Config)
deriving DecidableEq, Repr

/-- `config::load_or_create`, with the I/O branching made explicit: only a
file that exists, reads and deserializes successfully yields its stored
record; every failure branch falls back to `Config::default()` (the attempted
re-save of the default in the missing/corrupt branches does not affect the
returned value). -/
def load_or_create (env : ConfigLoadSource) : Config :=
  match env with
  | .noConfigDir => Config.default
  | .fileMissing => Config.default
  | .fileUnreadable => Config.default
  | .fileCorrupt => Config.default
  | .fileParsed c => c

/-- `KnockType` from `src/main.rs`. -/
inductive KnockType where
  | Open
  | Close
deriving DecidableEq, Repr

/-- The open/close label string paired with each `KnockType` in the
`KnockStep` handler (`"开启"` / `"关闭"`). -/
def kindStr : KnockType → String
  | .Open => "开启"
  | .Close => "关闭"

/-- The window events the `EventOccurred` handler distinguishes: a
`Event::Window(window::Event::CloseRequested)` versus anything else. -/
inductive AppEvent where
  | WindowCloseRequested
  | Other
deriving DecidableEq, Repr

instance {α β : Type} [DecidableEq α] [DecidableEq β] : DecidableEq (Except α β) :=
  fun a b =>
    match a, b with
    | .ok x, .ok y =>
        if h : x = y then isTrue (by rw [h])
        else isFalse (by intro hc; cases hc; exact h rfl)
    | .error x, .error y =>
        if h : x = y then isTrue (by rw [h])
        else isFalse (by intro hc; cases hc; exact h rfl)
    | .ok _, .error _ => isFalse (fun hc => Except.noConfusion hc)
    | .error _, .ok _ => isFalse (fun hc => Except.noConfusion hc)

/-- `Message` from `src/main.rs`.  `DismissToast` carries the toast id as a
number; `SaveCompleted` carries the `Result<(), String>` of the save task. -/
inductive Message where
  | HostInputChanged (s : String)
  | PortInputChanged (s : String)
  | DelayInputChanged (s : String)
  | ClosePortInputChanged (s : String)
  | DismissToast (id : Nat)
  | PushToast (t : Toast)
  | KnockStep (ty : KnockType) (index : Nat)
  | SaveButtonPressed
  | KnockPressed
  | CloseKnockPressed
  | EventOccurred (e : AppEvent)
  | ExitApp
  | SaveCompleted (r : Except String Unit)
deriving DecidableEq, Repr

/-- The `iced::Task<Message>` value returned by `update`, made explicit:
`noTask` is `Task::none()`; `perform m` is a `Task::perform` whose async
block does no observable work and produces `m`; `probeThen addr delayMs m` is
the knock-step task that probes `addr` (`knock::shoot`), sleeps `delayMs`
milliseconds, and then produces `m`; `performSave c` is the save task (its
outcome arrives later as a `SaveCompleted` message); `exitProcess` is
`std::process::exit(0)` (modelled as an effect since nothing runs after
it). -/
inductive AppTask where
  | noTask
  | perform (m : Message)
  | probeThen (addr : String) (delayMs : Nat) (m : Message)
  | performSave (c : Config)
  | exitProcess
deriving DecidableEq, Repr

/-- The `PandaKnocking` application state (`src/main.rs`).  The
`ToastContainer` field is not part of the model: toasts pushed during one
`update` call are instead returned alongside the new state, as the
notification trace the external UI consumes. -/
structure PandaKnocking where
  host : String
  ports_str : String
  ports : List Nat
  close_ports_str : String
  close_ports : List Nat
  delay : Nat
  is_knocking : Bool
  is_close_requested : Bool
deriving DecidableEq, Repr

/-- The port list the `KnockStep` handler selects for a kind
(`ports_to_use`). -/
def kindPorts (st : PandaKnocking) : KnockType → List Nat
  | .Open => st.ports
  | .Close => st.close_ports

/-- The progress toast the `KnockStep` handler pushes for the previously
completed step: pushed only when `index > 0` and the previous index is still
in bounds of the selected port list. -/
def prevStepToasts (host : String) (ks : String) (ports_to_use : List Nat)
    (index : Nat) : List Toast :=
  if index > 0 then
    match ports_to_use[index - 1]? with
    | some port => [.knockStepDelivered index ks host port]
    | none => []
  else []

/-- `PandaKnocking::update`: one message-handling step.  Returns the new
state, the toasts pushed during the call (in push order), and the returned
task. -/
def update (st : PandaKnocking) : Message → PandaKnocking × List Toast × AppTask
  | .HostInputChanged new_value => ({ st with host := new_value }, [], .noTask)
  | .PortInputChanged new_port =>
      let r := parse_port_str new_port "开启"
      ({ st with ports_str := new_port, ports := r.1 }, r.2, .noTask)
  | .ClosePortInputChanged value =>
      let r := parse_port_str value "关闭"
      ({ st with close_ports_str := value, close_ports := r.1 }, r.2, .noTask)
  | .PushToast t => (st, [t], .noTask)
  | .DelayInputChanged new_delay =>
      match parseU64 (rustTrim new_delay) with
      | .ok num => ({ st with delay := num }, [], .noTask)
      | .error err =>
          (st, [], .perform (.PushToast (.delayParseFailed (rustTrim new_delay) err)))
  | .KnockPressed =>
      if st.is_knocking || st.ports.isEmpty then (st, [], .noTask)
      else ({ st with is_knocking := true }, [], .perform (.KnockStep .Open 0))
  | .CloseKnockPressed =>
      if st.is_knocking || st.close_ports.isEmpty then (st, [], .noTask)
      else ({ st with is_knocking := true }, [], .perform (.KnockStep .Close 0))
  | .KnockStep knock_type index =>
      let ports_to_use := kindPorts st knock_type
      let ks := kindStr knock_type
      let prev := prevStepToasts st.host ks ports_to_use index
      match ports_to_use[index]? with
      | some port =>
          (st, prev,
           .probeThen (st.host ++ ":" ++ toString port) st.delay
             (.KnockStep knock_type (index + 1)))
      | none =>
          match knock_type, st.is_close_requested with
          | .Close, true =>
              ({ st with is_knocking := false },
               prev ++ [.allKnocksDone ks], .perform .ExitApp)
          | .Close, false =>
              ({ st with is_knocking := false }, prev ++ [.allKnocksDone ks], .noTask)
          | .Open, _ =>
              ({ st with is_knocking := false }, prev ++ [.allKnocksDone ks], .noTask)
  | .DismissToast _ => (st, [], .noTask)
  | .SaveButtonPressed =>
      (st, [],
       .performSave
         { host := st.host, ports_str := st.ports_str,
           close_ports_str := st.close_ports_str, delay := st.delay })
  | .SaveCompleted r =>
      match r with
      | .ok _ => (st, [.saveOk], .noTask)
      | .error e => (st, [.saveFailed e], .noTask)
  | .EventOccurred e =>
      match e with
      | .WindowCloseRequested =>
          if st.is_knocking then (st, [], .noTask)
          else
            if st.close_ports.isEmpty then
              ({ st with is_close_requested := true },
               [.closeRequestedInfo], .perform .ExitApp)
            else
              ({ st with is_close_requested := true, is_knocking := true },
               [.closeRequestedInfo], .perform (.KnockStep .Close 0))
      | .Other => (st, [], .noTask)
  | .ExitApp => (st, [], .exitProcess)

/-- Observable events of a driven message chain: a pushed toast, a probe
attempt (`knock::shoot` on `addr` followed by a `delayMs` sleep), or the
process-exit request. -/
inductive Ev where
  | toast (t : Toast)
  | probe (addr : String) (delayMs : Nat)
  | exit
deriving DecidableEq, Repr

/-- Execute a self-contained message chain: process `m`, then follow the
produced task while it keeps scheduling follow-up messages, collecting
events in order.  A probe task contributes its probe event before the events
of the message it produces.  A save task ends the chain (its completion
arrives as a separate message).  `fuel` bounds the number of messages
processed; the `Bool` result records whether the chain ended on its own
before fuel ran out. -/
def drive : Nat → PandaKnocking → Message → PandaKnocking × List Ev × Bool
  | 0, st, _ => (st, [], false)
  | fuel + 1, st, m =>
      let r := update st m
      let evs := r.2.1.map Ev.toast
      match r.2.2 with
      | .noTask => (r.1, evs, true)
      | .exitProcess => (r.1, evs ++ [.exit], true)
      | .performSave _ => (r.1, evs, true)
      | .perform m2 =>
          let d := drive fuel r.1 m2
          (d.1, evs ++ d.2.1, d.2.2)
      | .probeThen a del m2 =>
          let d := drive fuel r.1 m2
          (d.1, evs ++ .probe a del :: d.2.1, d.2.2)

/-- The toasts of an event trace, in order. -/
def toastsOf (evs : List Ev) : List Toast :=
  evs.filterMap fun e =>
    match e with
    | .toast t => some t
    | _ => none

/-- The number of probe-plus-delay steps in an event trace. -/
def probeCount (evs : List Ev) : Nat :=
  (evs.filter fun e =>
    match e with
    | .probe _ _ => true
    | _ => false).length

/-- The probe events of the knock chain from step `idx` on, with the
progress toast of each step (pushed by the handler of the following step
message) interleaved after its probe. -/
def stepChainEvs (host : String) (del : Nat) (ks : String) (ports : List Nat)
    (idx : Nat) : List Ev :=
  ((List.enumFrom idx (ports.drop idx)).map fun p =>
    [Ev.probe (host ++ ":" ++ toString p.2) del,
     Ev.toast (.knockStepDelivered (p.1 + 1) ks host p.2)]).flatten

/-- The trailing events of a completed knock chain: the trace ends with the
process-exit request exactly when the run is of Close kind and a close was
requested. -/
def chainTailEvs (ty : KnockType) (closeRequested : Bool) : List Ev :=
  match ty, closeRequested with
  | .Close, true => [.exit]
  | _, _ => []

/-- The button message that starts a run of the given kind. -/
def startMsg : KnockType → Message
  | .Open => .KnockPressed
  | .Close => .CloseKnockPressed

/-- Process a list of messages in order, keeping only the state (the tasks a
real run would schedule may deliver further messages; quantifying over an
arbitrary message list subsumes every such interleaving). -/
def applyMsgs (st : PandaKnocking) : List Message → PandaKnocking
  | [] => st
  | m :: ms => applyMsgs (update st m).1 ms

/-- A concrete application state used to instantiate theorems with
hypotheses. -/
def sampleState : PandaKnocking :=
  { host := "127.0.0.1"
    ports_str := "5000, 6000"
    ports := [5000, 6000]
    close_ports_str := "7000"
    close_ports := [7000]
    delay := 100
    is_knocking := false
    is_close_requested := false }

/-- A concrete state with two open ports and no close ports, used for the
mid-run-mutation scenario. -/
def mutState : PandaKnocking :=
  { host := "h"
    ports_str := "1,2"
    ports := [1, 2]
    close_ports_str := ""
    close_ports := []
    delay := 5
    is_knocking := false
    is_close_requested := false }

theorem parse_port_str_foldl (kind : String) :
    ∀ (l : List (Nat × String)) (acc : List Nat × List Toast),
      l.foldl
        (fun acc p =>
          let trimmed := rustTrim p.2
          if trimmed.isEmpty then acc
          else
            match parseU16 trimmed with
            | .ok num => (acc.1 ++ [num], acc.2)
            | .error err => (acc.1, acc.2 ++ [.portParseFailed (p.1 + 1) kind trimmed err]))
        acc
      = (acc.1 ++ l.filterMap (fun p => validPort p.2), acc.2 ++ l.filterMap (portDiag kind)) := by
  intro l
  induction l with
  | nil => intro acc; simp
  | cons p l ih =>
    intro acc
    simp only [List.foldl_cons, List.filterMap_cons]
    by_cases h : (rustTrim p.2).isEmpty
    · simp [h, ih, validPort, portDiag]
    · cases hp : parseU16 (rustTrim p.2) with
      | ok num =>
        simp [h, hp, ih, validPort, portDiag, Except.toOption]
      | error err =>
        simp [h, hp, ih, validPort, portDiag, Except.toOption]

theorem stepChainEvs_cons (host : String) (del : Nat) (ks : String)
    (ports : List Nat) (idx : Nat) (h : idx < ports.length) :
    stepChainEvs host del ks ports idx
      = .probe (host ++ ":" ++ toString ports[idx]) del
        :: .toast (.knockStepDelivered (idx + 1) ks host ports[idx])
        :: stepChainEvs host del ks ports (idx + 1) := by
  unfold stepChainEvs
  rw [List.drop_eq_getElem_cons h]
  simp [List.enumFrom]

theorem stepChainEvs_end (host : String) (del : Nat) (ks : String)
    (ports : List Nat) : stepChainEvs host del ks ports ports.length = [] := by
  unfold stepChainEvs
  simp

theorem drive_knock_chain (ty : KnockType) :
    ∀ (k idx fuel : Nat) (st : PandaKnocking),
      idx + k = (kindPorts st ty).length →
      k + 2 ≤ fuel →
      drive fuel st (.KnockStep ty idx)
        = ({ st with is_knocking := false },
           (prevStepToasts st.host (kindStr ty) (kindPorts st ty) idx).map Ev.toast
             ++ stepChainEvs st.host st.delay (kindStr ty) (kindPorts st ty) idx
             ++ Ev.toast (.allKnocksDone (kindStr ty))
               :: chainTailEvs ty st.is_close_requested,
           true) := by
  intro k
  induction k with
  | zero =>
    intro idx fuel st hlen hfuel
    obtain ⟨f, rfl⟩ : ∃ f, fuel = f + 1 := ⟨fuel - 1, by omega⟩
    have hidx : idx = (kindPorts st ty).length := by omega
    subst hidx
    have hnone : (kindPorts st ty)[(kindPorts st ty).length]? = none := by
      simp
    cases ty with
    | Open =>
      simp only [drive, update, hnone, stepChainEvs_end, chainTailEvs]
      simp
    | Close =>
      cases hc : st.is_close_requested with
      | false =>
        simp only [drive, update, hnone, hc, stepChainEvs_end, chainTailEvs]
        simp
      | true =>
        obtain ⟨f2, rfl⟩ : ∃ f2, f = f2 + 1 := ⟨f - 1, by omega⟩
        simp only [drive, update, hnone, hc, stepChainEvs_end, chainTailEvs]
        simp
  | succ k ih =>
    intro idx fuel st hlen hfuel
    obtain ⟨f, rfl⟩ : ∃ f, fuel = f + 1 := ⟨fuel - 1, by omega⟩
    have hidx : idx < (kindPorts st ty).length := by omega
    have hsome : (kindPorts st ty)[idx]? = some (kindPorts st ty)[idx] :=
      List.getElem?_eq_getElem hidx
    have hih := ih (idx + 1) f st (by omega) (by omega)
    have hprev : prevStepToasts st.host (kindStr ty) (kindPorts st ty) (idx + 1)
        = [.knockStepDelivered (idx + 1) (kindStr ty) st.host (kindPorts st ty)[idx]] := by
      simp [prevStepToasts, hsome]
    simp only [drive, update, hsome]
    rw [hih]
    rw [stepChainEvs_cons st.host st.delay (kindStr ty) (kindPorts st ty) idx hidx]
    simp [hprev]

theorem toastsOf_append (a b : List Ev) :
    toastsOf (a ++ b) = toastsOf a ++ toastsOf b := by
  simp [toastsOf]

theorem toastsOf_stepChainEvs (host : String) (del : Nat) (ks : String) :
    ∀ (l : List (Nat × Nat)),
      toastsOf ((l.map fun p =>
          [Ev.probe (host ++ ":" ++ toString p.2) del,
           Ev.toast (.knockStepDelivered (p.1 + 1) ks host p.2)]).flatten)
        = l.map fun p => Toast.knockStepDelivered (p.1 + 1) ks host p.2 := by
  intro l
  induction l with
  | nil => simp [toastsOf]
  | cons p l ih => simp [toastsOf] at ih ⊢; exact ih

theorem probeCount_stepChainEvs (host : String) (del : Nat) (ks : String) :
    ∀ (l : List (Nat × Nat)),
      probeCount ((l.map fun p =>
          [Ev.probe (host ++ ":" ++ toString p.2) del,
           Ev.toast (.knockStepDelivered (p.1 + 1) ks host p.2)]).flatten)
        = l.length := by
  intro l
  induction l with
  | nil => simp [probeCount]
  | cons p l ih => simp [probeCount] at ih ⊢; exact ih

theorem filterMap_enumFrom_snd {α β : Type} (f : α → Option β) :
    ∀ (l : List α) (i : Nat),
      (List.enumFrom i l).filterMap (fun p => f p.2) = l.filterMap f := by
  intro l
  induction l with
  | nil => intro i; simp
  | cons a l ih => intro i; simp [List.enumFrom, List.filterMap_cons, ih]

/-- Claim C2: `parse_port_str` is a total function (it returns for every
input string), and its result is exactly characterized token by token: every
token of the comma split that is non-empty after trimming and parses as a
`u16` (an integer in [0, 65535]) is appended to the output port list in the
order encountered (duplicates preserved); every token that is non-empty after
trimming and does not so parse yields exactly one diagnostic toast carrying
the 1-based index of the token in the comma split of the original text
(counting empty tokens) and is omitted from the port list.  The filterMap
form makes the claim about surrounding tokens literal: each token is mapped
independently of its neighbours, so well-formed tokens on either side of a
malformed one are kept, in original order. -/
theorem claim2_parse_characterization (s kind : String) :
    parse_port_str s kind
      = ((rustSplit ',' s).filterMap validPort,
         (rustSplit ',' s).enum.filterMap (portDiag kind)) := by
  unfold parse_port_str
  rw [parse_port_str_foldl]
  simp only [List.nil_append]
  rw [List.enum, filterMap_enumFrom_snd validPort]

/-- Claim C9: whenever the stored settings state is absent, unreadable, or
corrupt (that is, the environment does not supply a successfully parsed
record), `load_or_create` returns the built-in defaults — host "127.0.0.1",
open-port text "5000, 6000, 7000", close-port text "7000, 6000, 5000",
delay 1000 milliseconds — and, being a total function into `Config`, it
propagates no failure to the caller. -/
theorem claim9_load_defaults (env : ConfigLoadSource)
    (h : ∀ c, env ≠ ConfigLoadSource.fileParsed c) :
    load_or_create env = Config.default ∧
    Config.default
      = { host := "127.0.0.1", ports_str := "5000, 6000, 7000",
          close_ports_str := "7000, 6000, 5000", delay := 1000 } := by
  refine ⟨?_, rfl⟩
  cases env with
  | fileParsed c => exact absurd rfl (h c)
  | noConfigDir => rfl
  | fileMissing => rfl
  | fileUnreadable => rfl
  | fileCorrupt => rfl

theorem claim9_load_defaults_witness :
    (∀ c, ConfigLoadSource.fileCorrupt ≠ ConfigLoadSource.fileParsed c) ∧
    (load_or_create .fileCorrupt = Config.default ∧
      Config.default
        = { host := "127.0.0.1", ports_str := "5000, 6000, 7000",
            close_ports_str := "7000, 6000, 5000", delay := 1000 }) :=
  ⟨fun _ h => ConfigLoadSource.noConfusion h,
   claim9_load_defaults .fileCorrupt (fun _ h => ConfigLoadSource.noConfusion h)⟩

/-- Claim C3: pressing either knock button while a run is in flight, or while
the corresponding port list is empty, is a rejected no-op: the state is
returned unchanged (so `busy`, `closeRequested` and any in-flight run
progress are untouched), no toast is pushed, and no task is scheduled (in
particular no second run is started). -/
theorem claim3_start_rejected (st : PandaKnocking) :
    (st.is_knocking = true ∨ st.ports = [] →
       update st .KnockPressed = (st, [], .noTask)) ∧
    (st.is_knocking = true ∨ st.close_ports = [] →
       update st .CloseKnockPressed = (st, [], .noTask)) := by
  constructor <;> rintro (h | h) <;> simp [update, h]

theorem claim3_start_rejected_witness :
    (({ sampleState with is_knocking := true } : PandaKnocking).is_knocking = true ∨
        ({ sampleState with is_knocking := true } : PandaKnocking).ports = []) ∧
    update { sampleState with is_knocking := true } .KnockPressed
      = ({ sampleState with is_knocking := true }, [], .noTask) :=
  ⟨Or.inl rfl, (claim3_start_rejected { sampleState with is_knocking := true }).1 (Or.inl rfl)⟩

/-- Claim C6: a window close request arriving while a run is in flight
(`is_knocking == true`) is ignored entirely: the state is returned unchanged
(in particular `is_close_requested` is not set and the run progress is
untouched), no toast is pushed, and no task is scheduled (no second run, no
exit request). -/
theorem claim6_close_request_while_busy_ignored (st : PandaKnocking)
    (h : st.is_knocking = true) :
    update st (.EventOccurred .WindowCloseRequested) = (st, [], .noTask) := by
  simp [update, h]

theorem claim6_close_request_while_busy_ignored_witness :
    (({ sampleState with is_knocking := true } : PandaKnocking).is_knocking = true) ∧
    update { sampleState with is_knocking := true } (.EventOccurred .WindowCloseRequested)
      = ({ sampleState with is_knocking := true }, [], .noTask) :=
  ⟨rfl, claim6_close_request_while_busy_ignored { sampleState with is_knocking := true } rfl⟩

/-- Claim C10: handling `DelayInputChanged` with a string whose trimmed form
does not parse as `u64` leaves the entire state — in particular the stored
delay — unchanged and only schedules an error notification; with a string
that does parse, the stored delay is replaced by the parsed value and nothing
else changes. -/
theorem claim10_delay_input (st : PandaKnocking) (s : String) :
    (∀ e, parseU64 (rustTrim s) = .error e →
       update st (.DelayInputChanged s)
         = (st, [], .perform (.PushToast (.delayParseFailed (rustTrim s) e)))) ∧
    (∀ n, parseU64 (rustTrim s) = .ok n →
       update st (.DelayInputChanged s) = ({ st with delay := n }, [], .noTask)) := by
  constructor <;> intro x hx <;> simp [update, hx]

theorem claim10_delay_input_witness :
    (parseU64 (rustTrim "12x") = .error .invalidDigit ∧
      update sampleState (.DelayInputChanged "12x")
        = (sampleState, [],
           .perform (.PushToast (.delayParseFailed (rustTrim "12x") .invalidDigit)))) ∧
    (parseU64 (rustTrim " 250 ") = .ok 250 ∧
      update sampleState (.DelayInputChanged " 250 ")
        = ({ sampleState with delay := 250 }, [], .noTask)) :=
  ⟨⟨by decide, (claim10_delay_input sampleState "12x").1 .invalidDigit (by decide)⟩,
   ⟨by decide, (claim10_delay_input sampleState " 250 ").2 250 (by decide)⟩⟩

/-- Counterexample to claim C7 at a concrete input.  From `mutState` (open
ports `[1, 2]`, host `"h"`, delay `5`) a run is started; step 0 probes
`"h:1"`.  Undisturbed, step 1 would probe `"h:2"`.  If the host input is
changed to `"g"` between step 0 and step 1, step 1 probes `"g:2"` instead;
if the open-port text is changed to `"9"`, step 1 finds no port at index 1
and the run terminates after a single probe.  So the host, delay and port
sequence used by the steps of a run are not those captured when the run
started. -/
theorem claim7_counterexample :
    (update mutState .KnockPressed).2.2 = .perform (.KnockStep .Open 0) ∧
    (update (update mutState .KnockPressed).1 (.KnockStep .Open 0)).2.2
      = .probeThen "h:1" 5 (.KnockStep .Open 1) ∧
    (update (update mutState .KnockPressed).1 (.KnockStep .Open 1)).2.2
      = .probeThen "h:2" 5 (.KnockStep .Open 2) ∧
    (update (update (update mutState .KnockPressed).1 (.HostInputChanged "g")).1
        (.KnockStep .Open 1)).2.2
      = .probeThen "g:2" 5 (.KnockStep .Open 2) ∧
    (update (update (update mutState .KnockPressed).1 (.PortInputChanged "9")).1
        (.KnockStep .Open 1)).2.2
      = .noTask ∧
    ("g:2" : String) ≠ "h:2" := by
  refine ⟨rfl, rfl, rfl, rfl, rfl, by decide⟩

/-- Claim C7 as amended: a step does not use values captured in a run-start
snapshot; instead, each `KnockStep` handler reads the application state
current at the moment it runs.  Whenever index `idx` of the currently stored
port list for the kind holds `port`, the step probes the current
`host:port`, waits the current `delay`, leaves the state unchanged, and
schedules the next step; mutations of host, delay, or port list between
steps therefore take effect from the next step on (each single step uses
one consistent read of the state). -/
theorem claim7_amended_step_reads_current_state (st : PandaKnocking)
    (ty : KnockType) (idx port : Nat)
    (h : (kindPorts st ty)[idx]? = some port) :
    update st (.KnockStep ty idx)
      = (st, prevStepToasts st.host (kindStr ty) (kindPorts st ty) idx,
         .probeThen (st.host ++ ":" ++ toString port) st.delay
           (.KnockStep ty (idx + 1))) := by
  simp [update, h]

theorem claim7_amended_step_reads_current_state_witness :
    ((kindPorts sampleState .Open)[1]? = some 6000) ∧
    update sampleState (.KnockStep .Open 1)
      = (sampleState,
         prevStepToasts sampleState.host (kindStr .Open) (kindPorts sampleState .Open) 1,
         .probeThen (sampleState.host ++ ":" ++ toString 6000) sampleState.delay
           (.KnockStep .Open 2)) :=
  ⟨rfl, claim7_amended_step_reads_current_state sampleState .Open 1 6000 rfl⟩

/-- Claim C8: `is_close_requested` is written true by exactly one message —
the window close request arriving while no run is in flight — and no message
ever resets it: after any single message the flag is true exactly when it
was already true or that message just set it, and hence along any sequence
of processed messages, once true it stays true. -/
theorem claim8_close_requested_monotone :
    (∀ (st : PandaKnocking) (m : Message),
       ((update st m).1.is_close_requested = true ↔
         st.is_close_requested = true ∨
           (m = .EventOccurred .WindowCloseRequested ∧ st.is_knocking = false))) ∧
    (∀ (st : PandaKnocking) (msgs : List Message),
       st.is_close_requested = true →
         (applyMsgs st msgs).is_close_requested = true) := by
  have hstep : ∀ (st : PandaKnocking) (m : Message),
      ((update st m).1.is_close_requested = true ↔
        st.is_close_requested = true ∨
          (m = .EventOccurred .WindowCloseRequested ∧ st.is_knocking = false)) := by
    intro st m
    cases m with
    | HostInputChanged v => simp [update]
    | PortInputChanged v => simp [update]
    | DelayInputChanged v =>
        cases hp : parseU64 (rustTrim v) <;> simp [update, hp]
    | ClosePortInputChanged v => simp [update]
    | DismissToast id => simp [update]
    | PushToast t => simp [update]
    | KnockStep ty idx =>
        cases hg : (kindPorts st ty)[idx]? with
        | some p => simp [update, hg]
        | none =>
            cases ty with
            | Open => simp [update, hg]
            | Close =>
                cases hc : st.is_close_requested <;> simp [update, hg, hc]
    | SaveButtonPressed => simp [update]
    | KnockPressed =>
        by_cases hb : (st.is_knocking || st.ports.isEmpty) = true <;>
          simp [update, hb]
    | CloseKnockPressed =>
        by_cases hb : (st.is_knocking || st.close_ports.isEmpty) = true <;>
          simp [update, hb]
    | EventOccurred e =>
        cases e with
        | Other => simp [update]
        | WindowCloseRequested =>
            cases hk : st.is_knocking with
            | true => simp [update, hk]
            | false =>
                by_cases hce : st.close_ports.isEmpty = true <;>
                  simp [update, hk, hce]
    | ExitApp => simp [update]
    | SaveCompleted r => cases r <;> simp [update]
  refine ⟨hstep, ?_⟩
  intro st msgs
  induction msgs generalizing st with
  | nil => intro h; exact h
  | cons m ms ih =>
      intro h
      exact ih _ ((hstep st m).2 (Or.inl h))

theorem claim8_close_requested_monotone_witness :
    (({ sampleState with is_close_requested := true } : PandaKnocking).is_close_requested
        = true) ∧
    (applyMsgs { sampleState with is_close_requested := true }
        [.KnockPressed, .KnockStep .Open 0, .KnockStep .Open 1, .KnockStep .Open 2,
         .HostInputChanged "x", .DelayInputChanged "oops",
         .SaveCompleted (.error "disk full")]).is_close_requested = true :=
  ⟨rfl,
   claim8_close_requested_monotone.2 { sampleState with is_close_requested := true }
     [.KnockPressed, .KnockStep .Open 0, .KnockStep .Open 1, .KnockStep .Open 2,
      .HostInputChanged "x", .DelayInputChanged "oops",
      .SaveCompleted (.error "disk full")] rfl⟩

/-- Claim C4: process termination (`std::process::exit`) runs only while
handling `ExitApp`, and an `ExitApp` message is scheduled by exactly two
handlers: the close-request handler when no run is in flight and the close
port list is empty, and the `KnockStep` completion branch of a Close-kind
run (index past the end of the close list) while `is_close_requested` is
true.  In particular completion of an Open-kind run never schedules
termination, and completion of a Close-kind run with
`is_close_requested == false` does not either. -/
theorem claim4_termination_paths (st : PandaKnocking) (m : Message) :
    ((update st m).2.2 = .perform .ExitApp ↔
       (m = .EventOccurred .WindowCloseRequested ∧ st.is_knocking = false ∧
          st.close_ports = []) ∨
       (∃ idx, m = .KnockStep .Close idx ∧ st.close_ports[idx]? = none ∧
          st.is_close_requested = true)) ∧
    ((update st m).2.2 = .exitProcess ↔ m = .ExitApp) := by
  cases m with
  | HostInputChanged v => simp [update]
  | PortInputChanged v => simp [update]
  | ClosePortInputChanged v => simp [update]
  | DelayInputChanged v =>
      cases hp : parseU64 (rustTrim v) <;> simp [update, hp]
  | DismissToast id => simp [update]
  | PushToast t => simp [update]
  | SaveButtonPressed => simp [update]
  | SaveCompleted r => cases r <;> simp [update]
  | KnockPressed =>
      by_cases hb : (st.is_knocking || st.ports.isEmpty) = true <;> simp [update, hb]
  | CloseKnockPressed =>
      by_cases hb : (st.is_knocking || st.close_ports.isEmpty) = true <;>
        simp [update, hb]
  | ExitApp => simp [update]
  | KnockStep ty idx =>
      cases hg : (kindPorts st ty)[idx]? with
      | some p =>
          cases ty with
          | Open =>
              simp only [update, kindPorts]
              simp only [kindPorts] at hg
              simp [hg]
          | Close =>
              simp only [update, kindPorts]
              simp only [kindPorts] at hg
              simp [hg]
              intro hlen
              rw [List.getElem?_eq_none hlen] at hg
              cases hg
      | none =>
          cases ty with
          | Open =>
              simp only [update, kindPorts]
              simp only [kindPorts] at hg
              simp [hg]
          | Close =>
              cases hc : st.is_close_requested with
              | true =>
                  simp only [update, kindPorts, hc]
                  simp only [kindPorts] at hg
                  simp [hg, hc]
                  exact List.getElem?_eq_none_iff.mp hg
              | false =>
                  simp only [update, kindPorts, hc]
                  simp only [kindPorts] at hg
                  simp [hg, hc]
  | EventOccurred e =>
      cases e with
      | Other => simp [update]
      | WindowCloseRequested =>
          cases hk : st.is_knocking with
          | true => simp [update, hk]
          | false =>
              by_cases hce : st.close_ports.isEmpty = true <;>
                simp [update, hk, hce, List.isEmpty_iff] <;>
                simp_all [List.isEmpty_iff]

/-- Claim C5: a window close request arriving while no run is in flight sets
`is_close_requested` to true, and then: with an empty close port list, the
chain immediately requests process termination — the full event trace is the
informational toast followed by the exit request, with zero step or probe
events; with a non-empty close list, a Close-kind run is started — `busy`
becomes true and the first scheduled step message is `KnockStep Close 0`. -/
theorem claim5_close_request_when_idle (st : PandaKnocking)
    (h : st.is_knocking = false) :
    (st.close_ports = [] →
       drive 2 st (.EventOccurred .WindowCloseRequested)
         = ({ st with is_close_requested := true },
            [.toast .closeRequestedInfo, .exit], true)) ∧
    (st.close_ports ≠ [] →
       update st (.EventOccurred .WindowCloseRequested)
         = ({ st with is_close_requested := true, is_knocking := true },
            [.closeRequestedInfo], .perform (.KnockStep .Close 0))) := by
  constructor
  · intro hce
    show drive (1 + 1) st (.EventOccurred .WindowCloseRequested) = _
    simp only [drive, update, h, hce]
    simp [drive, update]
  · intro hce
    simp [update, h, List.isEmpty_iff, hce]

theorem claim5_close_request_when_idle_witness :
    (({ sampleState with close_ports := [] } : PandaKnocking).is_knocking = false ∧
       ({ sampleState with close_ports := [] } : PandaKnocking).close_ports = []) ∧
    drive 2 { sampleState with close_ports := [] }
        (.EventOccurred .WindowCloseRequested)
      = ({ sampleState with close_ports := [], is_close_requested := true },
         [.toast .closeRequestedInfo, .exit], true) :=
  ⟨⟨rfl, rfl⟩,
   (claim5_close_request_when_idle { sampleState with close_ports := [] } rfl).1 rfl⟩

theorem kindPorts_set_knocking (st : PandaKnocking) (b : Bool) (ty : KnockType) :
    kindPorts { st with is_knocking := b } ty = kindPorts st ty := by
  cases ty <;> rfl

theorem update_startMsg (st : PandaKnocking) (ty : KnockType)
    (h1 : st.is_knocking = false) (h2 : kindPorts st ty ≠ []) :
    update st (startMsg ty)
      = ({ st with is_knocking := true }, [], .perform (.KnockStep ty 0)) := by
  cases ty <;>
    simp only [kindPorts] at h2 <;>
    simp [startMsg, update, h1, List.isEmpty_iff, h2]

theorem drive_succ_perform {st st' : PandaKnocking} {m m2 : Message}
    {ts : List Toast} (h : update st m = (st', ts, .perform m2)) (fuel : Nat) :
    drive (fuel + 1) st m
      = ((drive fuel st' m2).1,
         ts.map Ev.toast ++ (drive fuel st' m2).2.1,
         (drive fuel st' m2).2.2) := by
  simp only [drive, h]

theorem probeCount_append (a b : List Ev) :
    probeCount (a ++ b) = probeCount a + probeCount b := by
  simp [probeCount, List.filter_append]

theorem probeCount_done_tail (t : Toast) (ty : KnockType) (b : Bool) :
    probeCount (Ev.toast t :: chainTailEvs ty b) = 0 := by
  cases ty <;> cases b <;> simp [probeCount, chainTailEvs]

theorem toastsOf_done_tail (t : Toast) (ty : KnockType) (b : Bool) :
    toastsOf (Ev.toast t :: chainTailEvs ty b) = [t] := by
  cases ty <;> cases b <;> simp [toastsOf, chainTailEvs]

/-- Claim C1: for every state with a non-empty port list of the chosen kind
and no run in flight, pressing the corresponding knock button sets `busy`
(`is_knocking`) to true, and the scheduled chain of step messages runs to
completion: after exactly `len` probe-plus-delay steps the state returns to
`busy == false` with every other field unchanged, and the notification trace
is exactly `len` step-completed toasts in ascending index order — the toast
of step `i` carrying the 1-based step number `i + 1`, the probed port
`ports[i]`, and the kind label — followed by exactly one
sequence-completed toast carrying the kind label. -/
theorem claim1_run_protocol (st : PandaKnocking) (ty : KnockType)
    (h1 : st.is_knocking = false) (h2 : kindPorts st ty ≠ []) :
    (update st (startMsg ty)).1.is_knocking = true ∧
    ∃ evs,
      drive ((kindPorts st ty).length + 3) st (startMsg ty)
        = ({ st with is_knocking := false }, evs, true) ∧
      probeCount evs = (kindPorts st ty).length ∧
      toastsOf evs
        = ((kindPorts st ty).enum.map fun p =>
            Toast.knockStepDelivered (p.1 + 1) (kindStr ty) st.host p.2)
          ++ [.allKnocksDone (kindStr ty)] := by
  have hstart := update_startMsg st ty h1 h2
  have hkp := kindPorts_set_knocking st true ty
  have hlen : 0 + (kindPorts st ty).length
      = (kindPorts { st with is_knocking := true } ty).length := by
    rw [hkp]; omega
  have hchain := drive_knock_chain ty (kindPorts st ty).length 0
      ((kindPorts st ty).length + 2) { st with is_knocking := true }
      hlen (by omega)
  rw [kindPorts_set_knocking] at hchain
  have e0 : stepChainEvs st.host st.delay (kindStr ty) (kindPorts st ty) 0
      = (((kindPorts st ty).enum).map fun p =>
          [Ev.probe (st.host ++ ":" ++ toString p.2) st.delay,
           Ev.toast (.knockStepDelivered (p.1 + 1) (kindStr ty) st.host p.2)]).flatten :=
    rfl
  refine ⟨by rw [hstart], ?_⟩
  refine ⟨stepChainEvs st.host st.delay (kindStr ty) (kindPorts st ty) 0
      ++ Ev.toast (.allKnocksDone (kindStr ty))
        :: chainTailEvs ty st.is_close_requested, ?_, ?_, ?_⟩
  · have h1d := drive_succ_perform hstart ((kindPorts st ty).length + 2)
    rw [hchain] at h1d
    simpa [prevStepToasts] using h1d
  · rw [probeCount_append, e0, probeCount_stepChainEvs, probeCount_done_tail]
    simp
  · rw [toastsOf_append, e0, toastsOf_stepChainEvs, toastsOf_done_tail]

theorem claim1_run_protocol_witness :
    (sampleState.is_knocking = false ∧ kindPorts sampleState .Open ≠ []) ∧
    ((update sampleState (startMsg .Open)).1.is_knocking = true ∧
      ∃ evs,
        drive ((kindPorts sampleState .Open).length + 3) sampleState (startMsg .Open)
          = ({ sampleState with is_knocking := false }, evs, true) ∧
        probeCount evs = (kindPorts sampleState .Open).length ∧
        toastsOf evs
          = ((kindPorts sampleState .Open).enum.map fun p =>
              Toast.knockStepDelivered (p.1 + 1) (kindStr .Open) sampleState.host p.2)
            ++ [.allKnocksDone (kindStr .Open)]) :=
  ⟨⟨rfl, by decide⟩, claim1_run_protocol sampleState .Open rfl (by decide)⟩
